import Mathlib

/-!
Verification development for the `mp-payeer` payment-API client
(`src/payeer/api.py`).  The Python code is shallowly embedded: pure
functions become Lean functions, Python exceptions become `Except`,
Python dicts become association lists with Python `dict.update`
semantics, and the JSON bodies returned by the remote HTTP service are
passed in explicitly as oracle inputs (the transport itself is an
external collaborator).  Byte strings are `List Nat` with entries below
256; `str.encode("utf-8")`, `base64.b64encode`, and `hashlib.sha256`
are implemented from their standard definitions so that every claim
about signatures and encodings is settled against real computations.
-/

namespace Payeer

/-! ## UTF-8 (model of Python `str.encode("utf-8")` / `bytes.decode("utf-8")`)

Lean strings, like Python strings, are sequences of Unicode scalar
values; we encode the code points directly. -/

/-- Unicode scalar values: everything below 0x110000 except surrogates. -/
def isValidCp (n : Nat) : Prop := n < 55296 ∨ (57344 ≤ n ∧ n < 1114112)

instance (n : Nat) : Decidable (isValidCp n) := by unfold isValidCp; infer_instance

/-- UTF-8 encoding of one code point (assumed valid). -/
def utf8EncodeCp (n : Nat) : List Nat :=
  if n < 128 then [n]
  else if n < 2048 then [192 + n / 64, 128 + n % 64]
  else if n < 65536 then [224 + n / 4096, 128 + n / 64 % 64, 128 + n % 64]
  else [240 + n / 262144, 128 + n / 4096 % 64, 128 + n / 64 % 64, 128 + n % 64]

/-- UTF-8 encoding of a code-point sequence. -/
def utf8Encode : List Nat → List Nat
  | [] => []
  | n :: rest => utf8EncodeCp n ++ utf8Encode rest

/-- Strict UTF-8 decoder (as Python `bytes.decode("utf-8")`), written as a
byte-at-a-time state machine: `need` continuation bytes are still expected,
`acc` is the accumulated code point, `lo` the smallest legal value for the
current sequence (rejecting overlong forms); surrogates and values above
0x10FFFF are rejected when a sequence completes. -/
def utf8DecodeAux : List Nat → Nat → Nat → Nat → Option (List Nat)
  | [], 0, _, _ => some []
  | [], _+1, _, _ => none
  | b :: rest, 0, _, _ =>
    if b < 128 then (utf8DecodeAux rest 0 0 0).map (b :: ·)
    else if b < 192 then none
    else if b < 224 then utf8DecodeAux rest 1 (b - 192) 128
    else if b < 240 then utf8DecodeAux rest 2 (b - 224) 2048
    else if b < 248 then utf8DecodeAux rest 3 (b - 240) 65536
    else none
  | b :: rest, 1, acc, lo =>
    if 128 ≤ b ∧ b < 192 then
      let n := acc * 64 + (b - 128)
      if lo ≤ n ∧ n < 1114112 ∧ ¬ (55296 ≤ n ∧ n < 57344) then
        (utf8DecodeAux rest 0 0 0).map (n :: ·)
      else none
    else none
  | b :: rest, need+2, acc, lo =>
    if 128 ≤ b ∧ b < 192 then utf8DecodeAux rest (need+1) (acc * 64 + (b - 128)) lo
    else none

/-- Model of Python `bytes.decode("utf-8")`, yielding code points. -/
def utf8Decode (bytes : List Nat) : Option (List Nat) := utf8DecodeAux bytes 0 0 0

theorem utf8Decode_encCp (n : Nat) (h : isValidCp n) (rest : List Nat) :
    utf8DecodeAux (utf8EncodeCp n ++ rest) 0 0 0 =
      (utf8DecodeAux rest 0 0 0).map (n :: ·) := by
  rcases Nat.lt_or_ge n 128 with h1 | h1
  · have he : utf8EncodeCp n = [n] := by
      unfold utf8EncodeCp; rw [if_pos h1]
    rw [he, List.cons_append, List.nil_append]
    simp only [utf8DecodeAux]
    rw [if_pos h1]
  · rcases Nat.lt_or_ge n 2048 with h2 | h2
    · have he : utf8EncodeCp n = [192 + n / 64, 128 + n % 64] := by
        unfold utf8EncodeCp; rw [if_neg (by omega), if_pos h2]
      rw [he]
      simp only [List.cons_append, List.nil_append, utf8DecodeAux]
      rw [if_neg (by omega), if_neg (by omega), if_pos (by omega), if_pos (by omega),
        if_pos (by omega)]
      have hn : (192 + n / 64 - 192) * 64 + (128 + n % 64 - 128) = n := by omega
      rw [hn]
      rfl
    · rcases Nat.lt_or_ge n 65536 with h3 | h3
      · have hs : ¬ (55296 ≤ n ∧ n < 57344) := by
          rcases h with h | h <;> omega
        have he : utf8EncodeCp n = [224 + n / 4096, 128 + n / 64 % 64, 128 + n % 64] := by
          unfold utf8EncodeCp; rw [if_neg (by omega), if_neg (by omega), if_pos h3]
        rw [he]
        simp only [List.cons_append, List.nil_append, utf8DecodeAux]
        rw [if_neg (by omega), if_neg (by omega), if_neg (by omega), if_pos (by omega),
          if_pos (by omega), if_pos (by omega)]
        have hn : ((224 + n / 4096 - 224) * 64 + (128 + n / 64 % 64 - 128)) * 64 +
            (128 + n % 64 - 128) = n := by omega
        rw [if_pos (by refine ⟨by omega, by omega, ?_⟩; intro hc; exact hs ⟨by omega, by omega⟩)]
        rw [hn]
        rfl
      · have hub : n < 1114112 := by rcases h with h | h <;> omega
        have he : utf8EncodeCp n =
            [240 + n / 262144, 128 + n / 4096 % 64, 128 + n / 64 % 64, 128 + n % 64] := by
          unfold utf8EncodeCp
          rw [if_neg (by omega), if_neg (by omega), if_neg (by omega)]
        rw [he]
        simp only [List.cons_append, List.nil_append, utf8DecodeAux]
        rw [if_neg (by omega), if_neg (by omega), if_neg (by omega), if_neg (by omega),
          if_pos (by omega), if_pos (by omega), if_pos (by omega), if_pos (by omega)]
        have hn : (((240 + n / 262144 - 240) * 64 + (128 + n / 4096 % 64 - 128)) * 64 +
            (128 + n / 64 % 64 - 128)) * 64 + (128 + n % 64 - 128) = n := by omega
        rw [if_pos (by refine ⟨by omega, by omega, ?_⟩; intro hc; omega)]
        rw [hn]
        rfl

/-- Decoding inverts encoding on valid code-point sequences. -/
theorem utf8Decode_utf8Encode (cps : List Nat) (h : ∀ n ∈ cps, isValidCp n) :
    utf8Decode (utf8Encode cps) = some cps := by
  unfold utf8Decode
  induction cps with
  | nil => rfl
  | cons n rest ih =>
    have hn : isValidCp n := h n (List.mem_cons_self n rest)
    have hrest : ∀ m ∈ rest, isValidCp m := fun m hm => h m (List.mem_cons_of_mem n hm)
    rw [utf8Encode, utf8Decode_encCp n hn, ih hrest]
    rfl

/-- Every byte produced by the UTF-8 encoder is below 256. -/
theorem utf8EncodeCp_lt (n : Nat) (hv : isValidCp n) : ∀ b ∈ utf8EncodeCp n, b < 256 := by
  intro b hb
  have hub : n < 1114112 := by rcases hv with h | h <;> omega
  unfold utf8EncodeCp at hb
  split at hb
  · simp at hb; omega
  · split at hb
    · simp at hb; rcases hb with hb | hb <;> omega
    · split at hb
      · simp at hb; rcases hb with hb | hb | hb <;> omega
      · simp at hb; rcases hb with hb | hb | hb | hb <;> omega

theorem utf8Encode_lt (cps : List Nat) (h : ∀ n ∈ cps, isValidCp n) :
    ∀ b ∈ utf8Encode cps, b < 256 := by
  induction cps with
  | nil => intro b hb; simp [utf8Encode] at hb
  | cons n rest ih =>
    intro b hb
    rw [utf8Encode] at hb
    rcases List.mem_append.1 hb with hb | hb
    · exact utf8EncodeCp_lt n (h n (List.mem_cons_self n rest)) b hb
    · exact ih (fun m hm => h m (List.mem_cons_of_mem n hm)) b hb

/-- The code points of a Lean `String`; model of the Python string value. -/
def strCps (s : String) : List Nat := s.data.map Char.toNat

/-- Model of Python `s.encode("utf-8")`. -/
def strBytes (s : String) : List Nat := utf8Encode (strCps s)

theorem strCps_valid (s : String) : ∀ n ∈ strCps s, isValidCp n := by
  intro n hn
  rcases List.mem_map.1 hn with ⟨c, _, rfl⟩
  have h := c.valid
  simp only [UInt32.isValidChar, Nat.isValidChar] at h
  rcases h with h | ⟨h1, h2⟩
  · exact Or.inl h
  · exact Or.inr ⟨h1, h2⟩

/-! ## Base64 (model of Python `base64.b64encode` / `base64.b64decode`)

Standard alphabet with `=` padding, working on byte lists; the encoder
output is given as ASCII codes. -/

/-- ASCII code of the base64 alphabet character for a sextet `i < 64`. -/
def b64CharCode (i : Nat) : Nat :=
  if i < 26 then 65 + i
  else if i < 52 then 71 + i
  else if i < 62 then i - 4
  else if i = 62 then 43
  else 47

/-- Sextet value of an ASCII code, `none` for characters outside the
base64 alphabet (in particular for the padding character `=`, 61). -/
def b64Index (c : Nat) : Option Nat :=
  if 65 ≤ c ∧ c ≤ 90 then some (c - 65)
  else if 97 ≤ c ∧ c ≤ 122 then some (c - 71)
  else if 48 ≤ c ∧ c ≤ 57 then some (c + 4)
  else if c = 43 then some 62
  else if c = 47 then some 63
  else none

theorem b64Index_charCode (i : Nat) (h : i < 64) : b64Index (b64CharCode i) = some i := by
  rcases Nat.lt_or_ge i 26 with h1 | h1
  · have hc : b64CharCode i = 65 + i := by unfold b64CharCode; rw [if_pos h1]
    rw [hc]; unfold b64Index
    rw [if_pos (by omega)]
    congr 1; omega
  · rcases Nat.lt_or_ge i 52 with h2 | h2
    · have hc : b64CharCode i = 71 + i := by unfold b64CharCode; rw [if_neg (by omega), if_pos h2]
      rw [hc]; unfold b64Index
      rw [if_neg (by omega), if_pos (by omega)]
      congr 1; omega
    · rcases Nat.lt_or_ge i 62 with h3 | h3
      · have hc : b64CharCode i = i - 4 := by
          unfold b64CharCode; rw [if_neg (by omega), if_neg (by omega), if_pos h3]
        rw [hc]; unfold b64Index
        rw [if_neg (by omega), if_neg (by omega), if_pos (by omega)]
        congr 1; omega
      · rcases Nat.lt_or_ge i 63 with h4 | h4
        · have hc : b64CharCode i = 43 := by
            unfold b64CharCode
            rw [if_neg (by omega), if_neg (by omega), if_neg (by omega), if_pos (by omega)]
          rw [hc]; unfold b64Index
          rw [if_neg (by omega), if_neg (by omega), if_neg (by omega), if_pos rfl]
          congr 1; omega
        · have hc : b64CharCode i = 47 := by
            unfold b64CharCode
            rw [if_neg (by omega), if_neg (by omega), if_neg (by omega), if_neg (by omega)]
          rw [hc]; unfold b64Index
          rw [if_neg (by omega), if_neg (by omega), if_neg (by omega), if_neg (by omega),
            if_pos rfl]
          congr 1; omega

theorem b64CharCode_ne_61 (i : Nat) : b64CharCode i ≠ 61 := by
  unfold b64CharCode
  split
  · omega
  · split
    · omega
    · split
      · omega
      · split <;> omega

theorem b64CharCode_lt_128 (i : Nat) : b64CharCode i < 128 := by
  unfold b64CharCode
  split
  · omega
  · split
    · omega
    · split
      · omega
      · split <;> omega

/-- Model of Python `base64.b64encode` on a byte list, producing the
ASCII codes of the base64 text (61 is `=`). -/
def b64encodeBytes : List Nat → List Nat
  | [] => []
  | [a] => [b64CharCode (a / 4), b64CharCode (a % 4 * 16), 61, 61]
  | [a, b] => [b64CharCode (a / 4), b64CharCode (a % 4 * 16 + b / 16),
               b64CharCode (b % 16 * 4), 61]
  | a :: b :: c :: rest =>
    b64CharCode (a / 4) :: b64CharCode (a % 4 * 16 + b / 16) ::
    b64CharCode (b % 16 * 4 + c / 64) :: b64CharCode (c % 64) ::
    b64encodeBytes rest

/-- Model of Python `base64.b64decode` on the ASCII codes of a base64
text: groups of four characters, `=` padding only at the very end,
`none` on any malformed input. -/
def b64decodeBytes : List Nat → Option (List Nat)
  | [] => some []
  | c1 :: c2 :: c3 :: c4 :: rest =>
    if c3 = 61 then
      if c4 = 61 ∧ rest = [] then
        match b64Index c1, b64Index c2 with
        | some i1, some i2 => some [i1 * 4 + i2 / 16]
        | _, _ => none
      else none
    else if c4 = 61 then
      if rest = [] then
        match b64Index c1, b64Index c2, b64Index c3 with
        | some i1, some i2, some i3 => some [i1 * 4 + i2 / 16, i2 % 16 * 16 + i3 / 4]
        | _, _, _ => none
      else none
    else
      match b64Index c1, b64Index c2, b64Index c3, b64Index c4 with
      | some i1, some i2, some i3, some i4 =>
        (b64decodeBytes rest).map
          ([i1 * 4 + i2 / 16, i2 % 16 * 16 + i3 / 4, i3 % 4 * 64 + i4] ++ ·)
      | _, _, _, _ => none
  | _ => none

/-- One-step unfolding of `b64decodeBytes` on a four-character group. -/
theorem b64decodeBytes_cons (c1 c2 c3 c4 : Nat) (rest : List Nat) :
    b64decodeBytes (c1 :: c2 :: c3 :: c4 :: rest) =
    if c3 = 61 then
      if c4 = 61 ∧ rest = [] then
        match b64Index c1, b64Index c2 with
        | some i1, some i2 => some [i1 * 4 + i2 / 16]
        | _, _ => none
      else none
    else if c4 = 61 then
      if rest = [] then
        match b64Index c1, b64Index c2, b64Index c3 with
        | some i1, some i2, some i3 => some [i1 * 4 + i2 / 16, i2 % 16 * 16 + i3 / 4]
        | _, _, _ => none
      else none
    else
      match b64Index c1, b64Index c2, b64Index c3, b64Index c4 with
      | some i1, some i2, some i3, some i4 =>
        (b64decodeBytes rest).map
          ([i1 * 4 + i2 / 16, i2 % 16 * 16 + i3 / 4, i3 % 4 * 64 + i4] ++ ·)
      | _, _, _, _ => none := rfl

/-- Decoding inverts encoding on byte lists. -/
theorem b64decode_b64encode : ∀ l : List Nat, (∀ x ∈ l, x < 256) →
    b64decodeBytes (b64encodeBytes l) = some l
  | [], _ => rfl
  | [a], h => by
    have ha : a < 256 := h a (by simp)
    rw [b64encodeBytes]
    rw [b64decodeBytes_cons, if_pos rfl, if_pos ⟨rfl, rfl⟩,
      b64Index_charCode (a / 4) (by omega), b64Index_charCode (a % 4 * 16) (by omega)]
    have he : a / 4 * 4 + a % 4 * 16 / 16 = a := by omega
    simp only []
    rw [he]
  | [a, b], h => by
    have ha : a < 256 := h a (by simp)
    have hb : b < 256 := h b (by simp)
    rw [b64encodeBytes]
    rw [b64decodeBytes_cons, if_neg (b64CharCode_ne_61 (b % 16 * 4)), if_pos rfl,
      if_pos rfl,
      b64Index_charCode (a / 4) (by omega),
      b64Index_charCode (a % 4 * 16 + b / 16) (by omega),
      b64Index_charCode (b % 16 * 4) (by omega)]
    have h1 : a / 4 * 4 + (a % 4 * 16 + b / 16) / 16 = a := by omega
    have h2 : (a % 4 * 16 + b / 16) % 16 * 16 + b % 16 * 4 / 4 = b := by omega
    simp only []
    rw [h1, h2]
  | a :: b :: c :: rest, h => by
    have ha : a < 256 := h a (by simp)
    have hb : b < 256 := h b (by simp)
    have hc : c < 256 := h c (by simp)
    have hrest : ∀ x ∈ rest, x < 256 := fun x hx => h x (by simp [hx])
    rw [b64encodeBytes]
    rw [b64decodeBytes_cons, if_neg (b64CharCode_ne_61 (b % 16 * 4 + c / 64)),
      if_neg (b64CharCode_ne_61 (c % 64)),
      b64Index_charCode (a / 4) (by omega),
      b64Index_charCode (a % 4 * 16 + b / 16) (by omega),
      b64Index_charCode (b % 16 * 4 + c / 64) (by omega),
      b64Index_charCode (c % 64) (by omega)]
    simp only []
    rw [b64decode_b64encode rest hrest]
    have h1 : a / 4 * 4 + (a % 4 * 16 + b / 16) / 16 = a := by omega
    have h2 : (a % 4 * 16 + b / 16) % 16 * 16 + (b % 16 * 4 + c / 64) / 4 = b := by omega
    have h3 : (b % 16 * 4 + c / 64) % 4 * 64 + c % 64 = c := by omega
    rw [h1, h2, h3]
    rfl

/-! ## SHA-256 (model of Python `hashlib.sha256(...).hexdigest()`)

Implemented from FIPS 180-4 over `Nat`, with 32-bit words kept below
`2^32` by explicit `% 2^32`; the bitwise operations are written as
32-step binary recursions so every evaluation reduces in the kernel. -/

/-- Truncation to a 32-bit word. -/
def w32 (n : Nat) : Nat := n % 4294967296

/-- Bitwise XOR of the low `k` bits. -/
def xorBits : Nat → Nat → Nat → Nat
  | 0, _, _ => 0
  | k+1, a, b => (if a % 2 = b % 2 then 0 else 1) + 2 * xorBits k (a / 2) (b / 2)

/-- Bitwise AND of the low `k` bits. -/
def andBits : Nat → Nat → Nat → Nat
  | 0, _, _ => 0
  | k+1, a, b => (if a % 2 = 1 ∧ b % 2 = 1 then 1 else 0) + 2 * andBits k (a / 2) (b / 2)

def xor32 (a b : Nat) : Nat := xorBits 32 a b

def and32 (a b : Nat) : Nat := andBits 32 a b

def not32 (a : Nat) : Nat := 4294967295 - w32 a

/-- Right-rotation of a 32-bit word by `n` places. -/
def rotr32 (n x : Nat) : Nat := w32 (x / 2 ^ n + x % 2 ^ n * 2 ^ (32 - n))

/-- Logical right shift of a 32-bit word. -/
def shr32 (n x : Nat) : Nat := x / 2 ^ n

def ch32 (e f g : Nat) : Nat := xor32 (and32 e f) (and32 (not32 e) g)

def maj32 (a b c : Nat) : Nat := xor32 (xor32 (and32 a b) (and32 a c)) (and32 b c)

def smallSigma0 (x : Nat) : Nat := xor32 (xor32 (rotr32 7 x) (rotr32 18 x)) (shr32 3 x)

def smallSigma1 (x : Nat) : Nat := xor32 (xor32 (rotr32 17 x) (rotr32 19 x)) (shr32 10 x)

def bigSigma0 (x : Nat) : Nat := xor32 (xor32 (rotr32 2 x) (rotr32 13 x)) (rotr32 22 x)

def bigSigma1 (x : Nat) : Nat := xor32 (xor32 (rotr32 6 x) (rotr32 11 x)) (rotr32 25 x)

/-- The 64 SHA-256 round constants. -/
def sha256K : List Nat := [
  1116352408, 1899447441, 3049323471, 3921009573, 961987163, 1508970993, 2453635748, 2870763221,
  3624381080, 310598401, 607225278, 1426881987, 1925078388, 2162078206, 2614888103, 3248222580,
  3835390401, 4022224774, 264347078, 604807628, 770255983, 1249150122, 1555081692, 1996064986,
  2554220882, 2821834349, 2952996808, 3210313671, 3336571891, 3584528711, 113926993, 338241895,
  666307205, 773529912, 1294757372, 1396182291, 1695183700, 1986661051, 2177026350, 2456956037,
  2730485921, 2820302411, 3259730800, 3345764771, 3516065817, 3600352804, 4094571909, 275423344,
  430227734, 506948616, 659060556, 883997877, 958139571, 1322822218, 1537002063, 1747873779,
  1955562222, 2024104815, 2227730452, 2361852424, 2428436474, 2756734187, 3204031479, 3329325298]

/-- The eight 32-bit working registers. -/
structure Hregs where
  a : Nat
  b : Nat
  c : Nat
  d : Nat
  e : Nat
  f : Nat
  g : Nat
  h : Nat

/-- Initial SHA-256 hash value. -/
def sha256Init : Hregs :=
  ⟨1779033703, 3144134277, 1013904242, 2773480762,
   1359893119, 2600822924, 528734635, 1541459225⟩

/-- Message-schedule extension, keeping the schedule in reverse order
(most recent word first) and prepending `k` more words. -/
def extendRev : Nat → List Nat → List Nat
  | 0, w => w
  | k+1, w =>
    extendRev k (w32 (smallSigma1 (w.getD 1 0) + w.getD 6 0 +
      smallSigma0 (w.getD 14 0) + w.getD 15 0) :: w)

/-- The 64-word message schedule of a 16-word block. -/
def sha256Schedule (block16 : List Nat) : List Nat := (extendRev 48 block16.reverse).reverse

/-- One compression round. -/
def sha256Round (st : Hregs) (k w : Nat) : Hregs :=
  let t1 := w32 (st.h + bigSigma1 st.e + ch32 st.e st.f st.g + k + w)
  let t2 := w32 (bigSigma0 st.a + maj32 st.a st.b st.c)
  ⟨w32 (t1 + t2), st.a, st.b, st.c, w32 (st.d + t1), st.e, st.f, st.g⟩

/-- Compression of one 16-word block into the running hash value. -/
def sha256Compress (st : Hregs) (block16 : List Nat) : Hregs :=
  let r := ((sha256K.zip (sha256Schedule block16)).foldl
    (fun s kw => sha256Round s kw.1 kw.2) st)
  ⟨w32 (st.a + r.a), w32 (st.b + r.b), w32 (st.c + r.c), w32 (st.d + r.d),
   w32 (st.e + r.e), w32 (st.f + r.f), w32 (st.g + r.g), w32 (st.h + r.h)⟩

/-- Big-endian 8-byte encoding of the bit length. -/
def sha256LenBytes (n : Nat) : List Nat :=
  [n / 72057594037927936 % 256, n / 281474976710656 % 256, n / 1099511627776 % 256,
   n / 4294967296 % 256, n / 16777216 % 256, n / 65536 % 256, n / 256 % 256, n % 256]

/-- FIPS 180-4 padding: `0x80`, zeros to 56 mod 64, 8 length bytes. -/
def sha256Pad (msg : List Nat) : List Nat :=
  msg ++ [128] ++ List.replicate ((119 - msg.length % 64) % 64) 0 ++
    sha256LenBytes (8 * msg.length)

/-- Big-endian 32-bit words from bytes. -/
def bytesToWords : List Nat → List Nat
  | b0 :: b1 :: b2 :: b3 :: rest =>
    (((b0 * 256 + b1) * 256 + b2) * 256 + b3) :: bytesToWords rest
  | _ => []

/-- Split a word list into 16-word blocks (`fuel` bounds the recursion). -/
def chunk16 : Nat → List Nat → List (List Nat)
  | _, [] => []
  | 0, l => [l]
  | fuel+1, l => l.take 16 :: chunk16 fuel (l.drop 16)

/-- SHA-256 of a byte list, as the final eight 32-bit words. -/
def sha256Words (msg : List Nat) : Hregs :=
  let ws := bytesToWords (sha256Pad msg)
  (chunk16 ws.length ws).foldl sha256Compress sha256Init

/-- Big-endian bytes of one 32-bit word. -/
def wordBytes (w : Nat) : List Nat :=
  [w / 16777216 % 256, w / 65536 % 256, w / 256 % 256, w % 256]

/-- SHA-256 digest of a byte list, as 32 bytes. -/
def sha256Bytes (msg : List Nat) : List Nat :=
  let s := sha256Words msg
  wordBytes s.a ++ wordBytes s.b ++ wordBytes s.c ++ wordBytes s.d ++
  wordBytes s.e ++ wordBytes s.f ++ wordBytes s.g ++ wordBytes s.h

/-- Uppercase hexadecimal digit. -/
def hexCharUpper (n : Nat) : Char := Char.ofNat (if n < 10 then 48 + n else 55 + n)

/-- Uppercase hexadecimal rendering of a byte list; model of Python
`.hexdigest().upper()`. -/
def bytesToHexUpper : List Nat → List Char
  | [] => []
  | b :: rest => hexCharUpper (b / 16) :: hexCharUpper (b % 16) :: bytesToHexUpper rest

/-- SHA-256 hex digest (uppercase) of a byte list. -/
def sha256HexUpper (msg : List Nat) : String := String.mk (bytesToHexUpper (sha256Bytes msg))

set_option maxRecDepth 10000 in
/-- FIPS 180-4 test vector: the empty message. -/
theorem sha256_test_vector_empty :
    sha256HexUpper [] = "E3B0C44298FC1C149AFBF4C8996FB92427AE41E4649B934CA495991B7852B855" := by
  decide

set_option maxRecDepth 10000 in
/-- FIPS 180-4 test vector: the three-byte message `"abc"`. -/
theorem sha256_test_vector_abc :
    sha256HexUpper [97, 98, 99] =
      "BA7816BF8F01CFEA414140DE5DAE2223B00361A396177A9CB410FF61F20015AD" := by
  decide

/-! ## Python values, errors and `dict` semantics -/

/-- JSON values as decoded by `requests.Response.json()`. -/
inductive Json where
  | null
  | bool (b : Bool)
  | int (n : Int)
  | str (s : String)
  | arr (elems : List Json)
  | obj (entries : List (String × Json))

/-- Python truthiness of a JSON value (`None`, `False`, `0`, `""`, `[]`,
`{}` are falsy). -/
def truthy : Json → Bool
  | .null => false
  | .bool b => b
  | .int n => decide (n ≠ 0)
  | .str s => decide (s ≠ "")
  | .arr l => !l.isEmpty
  | .obj l => !l.isEmpty

/-- The exceptions the embedded code can raise.  `payeerAPIError` is the
source's `PayeerAPIException`; its payload is the constructor argument
(an errors object for API failures, a message string otherwise). -/
inductive PyErr where
  | typeError (msg : String)
  | keyError (key : String)
  | validationError (msg : String)
  | payeerAPIError (payload : Json)

/-- Python `d.get(k)` on a dict modelled as an insertion-ordered
association list with unique keys. -/
def dget {α : Type} : List (String × α) → String → Option α
  | [], _ => none
  | (k1, v1) :: rest, k => if k1 = k then some v1 else dget rest k

/-- Python `d[k] = v`: overwrite in place if the key exists (dicts hold
each key once), else append. -/
def dset {α : Type} : List (String × α) → String → α → List (String × α)
  | [], k, v => [(k, v)]
  | (k1, v1) :: rest, k, v =>
    if k1 = k then (k, v) :: rest else (k1, v1) :: dset rest k v

/-- Python `d.update(u)`: set each entry of `u` in order. -/
def dupdate {α : Type} (d u : List (String × α)) : List (String × α) :=
  u.foldl (fun acc kv => dset acc kv.1 kv.2) d

/-- Python `d[k]`, raising `KeyError` on a missing key. -/
def pyGetItem {α : Type} (d : List (String × α)) (k : String) : Except PyErr α :=
  match dget d k with
  | some v => .ok v
  | none => .error (.keyError k)

theorem dget_dset_self {α : Type} (d : List (String × α)) (k : String) (v : α) :
    dget (dset d k v) k = some v := by
  induction d with
  | nil => simp [dget, dset]
  | cons kv rest ih =>
    obtain ⟨k1, v1⟩ := kv
    by_cases h : k1 = k
    · simp [dset, h, dget]
    · simp [dset, h, dget, ih]

theorem dget_dset_ne {α : Type} (d : List (String × α)) (k k' : String) (v : α)
    (h : k' ≠ k) : dget (dset d k v) k' = dget d k' := by
  have hne : ¬ (k = k') := fun hh => h hh.symm
  induction d with
  | nil => simp [dget, dset, hne]
  | cons kv rest ih =>
    obtain ⟨k1, v1⟩ := kv
    by_cases h1 : k1 = k
    · have hne1 : ¬ (k1 = k') := by rw [h1]; exact hne
      simp [dset, h1, dget, hne, hne1]
    · simp [dset, h1, dget, ih]

theorem dget_eq_none_of_not_mem {α : Type} (d : List (String × α)) (k : String)
    (h : k ∉ d.map Prod.fst) : dget d k = none := by
  induction d with
  | nil => rfl
  | cons kv rest ih =>
    obtain ⟨k1, v1⟩ := kv
    simp only [List.map_cons, List.mem_cons] at h
    push_neg at h
    have hne : ¬ (k1 = k) := fun hh => h.1 hh.symm
    simp [dget, hne, ih h.2]

theorem dget_dupdate_none {α : Type} (u : List (String × α)) :
    ∀ (d : List (String × α)) (k : String), dget u k = none →
      dget (dupdate d u) k = dget d k := by
  induction u with
  | nil => intro d k _; rfl
  | cons kv u' ih =>
    intro d k hget
    obtain ⟨k1, w⟩ := kv
    simp only [dget] at hget
    by_cases h1 : k1 = k
    · simp [h1] at hget
    · rw [if_neg h1] at hget
      show dget (dupdate (dset d k1 w) u') k = dget d k
      rw [ih (dset d k1 w) k hget, dget_dset_ne d k1 k w (fun hh => h1 hh.symm)]

theorem dget_dupdate_some {α : Type} (u : List (String × α)) :
    ∀ (d : List (String × α)) (k : String) (v : α), (u.map Prod.fst).Nodup →
      dget u k = some v → dget (dupdate d u) k = some v := by
  induction u with
  | nil => intro d k v _ hget; simp [dget] at hget
  | cons kv u' ih =>
    intro d k v hnodup hget
    obtain ⟨k1, w⟩ := kv
    simp only [List.map_cons, List.nodup_cons] at hnodup
    simp only [dget] at hget
    by_cases h1 : k1 = k
    · subst h1
      rw [if_pos rfl] at hget
      obtain rfl : w = v := by injection hget
      have hnone : dget u' k1 = none :=
        dget_eq_none_of_not_mem u' k1 hnodup.1
      show dget (dupdate (dset d k1 w) u') k1 = some w
      rw [dget_dupdate_none u' (dset d k1 w) k1 hnone, dget_dset_self]
    · rw [if_neg h1] at hget
      exact ih (dset d k1 w) k v hnodup.2 hget

/-! ## The embedded client (`src/payeer/api.py`)

The process-wide configuration (`PAYEER`, `PAYEER_ALLOWED_IPS` from
`payeer.settings`, and the constructor arguments of `PayeerApi`) is
passed explicitly.  The HTTP POST of `request_api` is an external
collaborator: the parsed JSON body the remote service answers with is
an explicit `response` argument, and the posted form parameters are
exposed by `request_api_posted_params`. -/

/-- The five constructor arguments of `PayeerApi`. -/
structure PayeerConfig where
  account : String
  api_id : String
  api_pass : String
  merchant_id : String
  merchant_secret_key : String

/-- `PayeerApi.generate_signature`:
`sha256(":".join(params).encode()).hexdigest().upper()`. -/
def generate_signature (params : List String) : String :=
  sha256HexUpper (strBytes (String.intercalate ":" params))

/-- `PayeerApi.generate_description`:
`base64.b64encode(description.encode("utf-8")).decode("utf-8")`. -/
def generate_description (description : String) : String :=
  String.mk ((b64encodeBytes (strBytes description)).map Char.ofNat)

/-- Python-level `generate_signature` call: `":".join(params)` raises
`TypeError` when `params` is `None` (which `merchant_handler` passes, see
`pyListAppendValue`). -/
def generate_signature_py : Option (List String) → Except PyErr String
  | some params => .ok (generate_signature params)
  | none => .error (.typeError "can only join an iterable")

/-- Python's ASCII decimal digits.  (The `\d` class of the `re` module
also admits other Unicode decimal digits; the wallet strings this
module deals in are ASCII, and the model restricts `\d` to `0-9`.) -/
def pyDigit (c : Char) : Bool := decide (48 ≤ c.toNat) && decide (c.toNat ≤ 57)

/-- A match of `\d{7,12}$` starting right after a `P`: some `k` between
7 and 12 digits followed by the end of the string (`$` in Python also
matches just before one final newline). -/
def walletTailMatch (rest : List Char) : Bool :=
  ([7, 8, 9, 10, 11, 12] : List Nat).any (fun k =>
    decide (k ≤ rest.length) && (rest.take k).all pyDigit &&
    (decide (rest.drop k = []) || decide (rest.drop k = ['\n'])))

/-- `re.search` of the `WalletValidator` pattern `P\d{7,12}$`: a match
may start at any position of the string (the pattern is anchored only
at the end). -/
def walletSearch : List Char → Bool
  | [] => false
  | c :: rest => ((c == 'P') && walletTailMatch rest) || walletSearch rest

/-- `PayeerApi.validate_wallet`: Django's `RegexValidator.__call__`
runs `regex.search(value)` and raises `ValidationError` when there is
no match. -/
def validate_wallet (wallet : String) : Except PyErr Unit :=
  if walletSearch wallet.data then .ok () else .error (.validationError "Enter a valid value.")

/-- `urllib.parse.quote_plus` on one UTF-8 byte: space becomes `+`,
ASCII alphanumerics and `_.-~` stay, everything else is `%XX`. -/
def quotePlusByte (b : Nat) : List Char :=
  if b = 32 then ['+']
  else if (48 ≤ b ∧ b ≤ 57) ∨ (65 ≤ b ∧ b ≤ 90) ∨ (97 ≤ b ∧ b ≤ 122) ∨
      b = 95 ∨ b = 46 ∨ b = 45 ∨ b = 126 then [Char.ofNat b]
  else ['%', hexCharUpper (b / 16), hexCharUpper (b % 16)]

/-- `urllib.parse.quote_plus` of a string. -/
def quotePlus (s : String) : String := String.mk ((strBytes s).flatMap quotePlusByte)

/-- `urllib.parse.urlencode` over an insertion-ordered mapping. -/
def urlencode (params : List (String × String)) : String :=
  String.intercalate "&" (params.map (fun kv => quotePlus kv.1 ++ "=" ++ quotePlus kv.2))

/-- The validation configuration of the order form: the recognized
currency and language codes (`payeer.constants` is not in `src/`). -/
structure MerchantFormConfig where
  currencies : List String
  languages : List String

/-- Split a character list on `.` (as Python `str.split(".")`). -/
def splitOnDot : List Char → List (List Char)
  | [] => [[]]
  | c :: rest =>
    if c = '.' then [] :: splitOnDot rest
    else
      match splitOnDot rest with
      | w :: ws => (c :: w) :: ws
      | [] => [[c]]

/-- Modelled from the spec: a positive decimal number with at most two
fraction digits (`payeer/forms.py` is not in `src/`; §9 of the spec
states the amount constraint used by `MerchantForm`). -/
def amountValid (s : String) : Bool :=
  match splitOnDot s.data with
  | [w] => (w ≠ [] && w.all pyDigit && w.any (· ≠ '0') : Bool)
  | [w, f] => (w ≠ [] && w.all pyDigit && f ≠ [] && f.all pyDigit &&
      decide (f.length ≤ 2) && (w.any (· ≠ '0') || f.any (· ≠ '0')) : Bool)
  | _ => false

/-- Modelled from the spec: `MerchantForm` (from `payeer/forms.py`,
which is not in `src/`).  Per spec §4.4/§9 it validates: order id
non-empty, amount a positive decimal with at most two fraction digits,
currency a recognized code, description non-empty, language a
recognized code.  Django form semantics: `cleaned_data` holds exactly
the fields whose validation succeeded. -/
def merchantFormCleanedData (fcfg : MerchantFormConfig)
    (order_id amount currency description language : String) : List (String × String) :=
  (if order_id ≠ "" then [("order_id", order_id)] else []) ++
  (if amountValid amount then [("amount", amount)] else []) ++
  (if fcfg.currencies.contains currency then [("currency", currency)] else []) ++
  (if description ≠ "" then [("description", description)] else []) ++
  (if fcfg.languages.contains language then [("language", language)] else [])

/-- The result quadruple of `PayeerApi.merchant`. -/
structure MerchantResult where
  location : String
  signature : String
  description : String
  params : List (String × String)

/-- `PayeerApi.merchant_url`. -/
def merchant_url : String := "https://payeer.com/merchant/?"

/-- `PayeerApi.merchant`.  `defaultLanguage` models
`PAYEER.get("LANGUAGE", LANGUAGE_RU)`.  Note the faithfully-kept quirks
of the source: the boolean result of `form.is_valid()` is discarded, the
description is read from `cleaned_data` with `.get(..., "")` (so a
rejected description silently becomes `""`), the other fields are read
with `[...]` (raising `KeyError` when validation dropped them), and
`language` is only read after the signature is computed.  The function
is pure: no network request is performed. -/
def merchant (cfg : PayeerConfig) (fcfg : MerchantFormConfig) (defaultLanguage : String)
    (order_id amount currency description : String) (language : Option String)
    (kwargs : List (String × String)) : Except PyErr MerchantResult := do
  let _ ← validate_wallet cfg.account
  let language := language.getD defaultLanguage
  let data := merchantFormCleanedData fcfg order_id amount currency description language
  let desc_str := generate_description ((dget data "description").getD "")
  let oid ← pyGetItem data "order_id"
  let amt ← pyGetItem data "amount"
  let cur ← pyGetItem data "currency"
  let signature := generate_signature
    [cfg.merchant_id, oid, amt, cur, desc_str, cfg.merchant_secret_key]
  let lng ← pyGetItem data "language"
  let params := dupdate
    [("m_shop", cfg.merchant_id), ("m_orderid", oid), ("m_amount", amt),
     ("m_curr", cur), ("m_desc", desc_str), ("m_sign", signature),
     ("m_process", "send"), ("lang", lng)] kwargs
  return { location := merchant_url ++ urlencode params,
           signature := signature,
           description := description,
           params := params }

/-- Truthiness of `request.META.get(...)`: `None` and `""` are falsy. -/
def optTruthy : Option String → Bool
  | some s => s ≠ ""
  | none => false

/-- `get_client_ip`: last `X-Forwarded-For` entry stripped, else
`X-Real-IP`, else `REMOTE_ADDR` (which may be absent). -/
def get_client_ip (meta : List (String × String)) : Option String :=
  let xff := dget meta "HTTP_X_FORWARDED_FOR"
  if optTruthy xff then
    some (((xff.getD "").split (· = ',')).getLastD "").trim
  else if optTruthy (dget meta "HTTP_X_REAL_IP") then
    dget meta "HTTP_X_REAL_IP"
  else
    dget meta "REMOTE_ADDR"

/-- Python `ip in PAYEER_ALLOWED_IPS` for the (possibly `None`) client
address. -/
def ipMem : Option String → List String → Bool
  | some ip, ips => ips.contains ip
  | none, _ => false

/-- The value of the Python expression
`list(received_params.values()).append(self._merchant_secret_key)`:
`list.append` mutates its receiver (a temporary that is immediately
discarded) and evaluates to `None`. -/
def pyListAppendValue (values : List String) (secret : String) : Option (List String) :=
  match values, secret with
  | _, _ => none

/-- The ten field names `merchant_handler` extracts. -/
def needed_params : List String :=
  ["m_operation_id", "m_operation_ps", "m_operation_date", "m_operation_pay_date",
   "m_shop", "m_orderid", "m_amount", "m_curr", "m_desc", "m_status"]

/-- The part of `merchant_handler` after the IP check: field
extraction, signature recomputation, accept/reject decision. -/
def merchant_handler_body (cfg : PayeerConfig) (post : List (String × String)) :
    Except PyErr (Bool × List (String × String) × String) := do
  let received_params := needed_params.map (fun p => (p, (dget post p).getD ""))
  let m_params := (dget post "m_params").getD ""
  let received_params :=
    if m_params ≠ "" then received_params ++ [("m_params", m_params)] else received_params
  let params_for_sign := pyListAppendValue (received_params.map (·.2)) cfg.merchant_secret_key
  let sign ← generate_signature_py params_for_sign
  let op_id ← pyGetItem received_params "m_operation_id"
  if op_id ≠ "" then
    let m_sign ← pyGetItem received_params "m_sign"
    if sign = m_sign then
      let m_status ← pyGetItem received_params "m_status"
      if m_status = "success" then
        let oid ← pyGetItem received_params "m_orderid"
        return (true, received_params, oid ++ "|success")
  let oid ← pyGetItem received_params "m_orderid"
  return (false, received_params, oid ++ "|error")

/-- `PayeerApi.merchant_handler`: `meta` and `post` are the request's
`META` headers and `POST` form; `allowed_ips` models
`PAYEER_ALLOWED_IPS`.  The client IP is checked against the allow-list
first (`raise PayeerAPIException("Wrong request IP")`) and only then
are the POST fields extracted and the signature recomputed.  The result
is the triple (accepted flag, extracted params, acknowledgment body
text); the acknowledgment is the body of the returned `HttpResponse`. -/
def merchant_handler (cfg : PayeerConfig) (allowed_ips : List String)
    (meta post : List (String × String)) :
    Except PyErr (Bool × List (String × String) × String) :=
  if ipMem (get_client_ip meta) allowed_ips then merchant_handler_body cfg post
  else .error (.payeerAPIError (.str "Wrong request IP"))

/-- The form parameters `request_api` actually posts: the credentials
are merged into the caller's parameters by `params.update({...})`, so
they are set after (and override) anything the caller supplied. -/
def request_api_posted_params (cfg : PayeerConfig) (params : List (String × Json)) :
    List (String × Json) :=
  dupdate params
    [("account", .str cfg.account), ("apiId", .str cfg.api_id), ("apiPass", .str cfg.api_pass)]

/-- `PayeerApi.request_api`: given the parsed JSON object the remote
service answered with, raise `PayeerAPIException(errors)` when the
body's `errors` entry is truthy, otherwise return the body. -/
def request_api (cfg : PayeerConfig) (params : List (String × Json))
    (response : List (String × Json)) : Except PyErr (List (String × Json)) :=
  let errors := (dget response "errors").getD Json.null
  if truthy errors then .error (.payeerAPIError errors) else .ok response

/-- `PayeerApi.get_balance`. -/
def get_balance (cfg : PayeerConfig) (response : List (String × Json)) :
    Except PyErr Json := do
  let r ← request_api cfg [("action", .str "balance")] response
  pyGetItem r "balance"

/-- `PayeerApi.check_user`: `try: ... except PayeerAPIException: return
False` then `return True`. -/
def check_user (cfg : PayeerConfig) (user : String) (response : List (String × Json)) :
    Except PyErr Bool :=
  match request_api cfg [("action", .str "checkUser"), ("user", .str user)] response with
  | .error (.payeerAPIError _) => .ok false
  | .error e => .error e
  | .ok _ => .ok true

/-- `PayeerApi.get_exchange_rate`. -/
def get_exchange_rate (cfg : PayeerConfig) (outputKind : String)
    (response : List (String × Json)) : Except PyErr Json := do
  let r ← request_api cfg
    [("action", .str "getExchangeRate"), ("output", .str outputKind)] response
  pyGetItem r "rate"

/-- `PayeerApi.get_pay_systems`. -/
def get_pay_systems (cfg : PayeerConfig) (response : List (String × Json)) :
    Except PyErr Json := do
  let r ← request_api cfg [("action", .str "getPaySystems")] response
  pyGetItem r "list"

/-- `PayeerApi.get_history_info`. -/
def get_history_info (cfg : PayeerConfig) (history_id : Json)
    (response : List (String × Json)) : Except PyErr Json := do
  let r ← request_api cfg
    [("action", .str "historyInfo"), ("historyId", history_id)] response
  pyGetItem r "info"

/-- `PayeerApi.shop_order_info`. -/
def shop_order_info (cfg : PayeerConfig) (shop_id order_id : Json)
    (response : List (String × Json)) : Except PyErr (List (String × Json)) :=
  request_api cfg
    [("action", .str "shopOrderInfo"), ("shopId", shop_id), ("orderId", order_id)] response

/-- Python `x > 0` on a JSON value: numbers compare, `bool` is an
`int` subtype (`True > 0` holds), anything else raises `TypeError`. -/
def pyGtZero : Json → Except PyErr Bool
  | .int n => .ok (decide (0 < n))
  | .bool b => .ok b
  | _ => .error (.typeError "not supported between instances")

/-- `PayeerApi.transfer`. -/
def transfer (cfg : PayeerConfig) (sum toAccount cur_in cur_out : String)
    (comment protect protect_period protect_code : Option String)
    (response : List (String × Json)) : Except PyErr Bool := do
  let _ ← validate_wallet toAccount
  let data := [("action", Json.str "transfer"), ("sum", Json.str sum),
    ("to", Json.str toAccount), ("curIn", Json.str cur_in), ("curOut", Json.str cur_out)]
  let data := match comment with
    | some c => dset data "comment" (.str c)
    | none => data
  let data := match protect with
    | some p =>
      let d := dset data "protect" (.str p)
      let d := match protect_period with
        | some pp => dset d "protectPeriod" (.str pp)
        | none => d
      match protect_code with
      | some pc => dset d "protectCode" (.str pc)
      | none => d
    | none => data
  let r ← request_api cfg data response
  let b ← pyGtZero ((dget r "historyId").getD (Json.int 0))
  return b

/-- `PayeerApi.check_output`: `try: ... except PayeerAPIException:
return False` then `return True`. -/
def check_output (cfg : PayeerConfig) (ps ps_account sum_in cur_in cur_out : String)
    (response : List (String × Json)) : Except PyErr Bool :=
  match request_api cfg
    [("action", .str "initOutput"), ("ps", .str ps),
     ("param_ACCOUNT_NUMBER", .str ps_account), ("sumIn", .str sum_in),
     ("curIn", .str cur_in), ("curOut", .str cur_out)] response with
  | .error (.payeerAPIError _) => .ok false
  | .error e => .error e
  | .ok _ => .ok true

/-- `PayeerApi.output`. -/
def output (cfg : PayeerConfig) (ps ps_account sum_in cur_in cur_out : String)
    (response : List (String × Json)) : Except PyErr (List (String × Json)) :=
  request_api cfg
    [("action", .str "output"), ("ps", .str ps),
     ("param_ACCOUNT_NUMBER", .str ps_account), ("sumIn", .str sum_in),
     ("curIn", .str cur_in), ("curOut", .str cur_out)] response

/-- `PayeerApi.history`: `params["action"] = "history"` then the shared
request, extracting the `history` entry. -/
def history (cfg : PayeerConfig) (params : List (String × Json))
    (response : List (String × Json)) : Except PyErr Json := do
  let r ← request_api cfg (dset params "action" (.str "history")) response
  pyGetItem r "history"

/-! ## Supporting facts -/

theorem toNat_ofNat_of_lt (n : Nat) (h : n < 55296) : (Char.ofNat n).toNat = n := by
  unfold Char.ofNat
  rw [dif_pos (Or.inl h)]
  rfl

set_option maxRecDepth 10000 in
/-- Sanity anchor: the example signature of spec §8 (checkout of order
`"1001"`, amount `"10.00"`, currency `"USD"`, description
`"Test order"`, merchant id `"12345"`, secret `"sk"`), independently
computed with CPython `hashlib`. -/
theorem generate_signature_spec_example :
    generate_signature ["12345", "1001", "10.00", "USD",
      generate_description "Test order", "sk"] =
      "2846233DBEC7A2275E41A739DE6C91EB7EECD7AEE97778AA6658535862DDD41E" := by
  decide

set_option maxRecDepth 10000 in
/-- Sanity anchor: `base64.b64encode("Test order".encode()).decode()`. -/
theorem generate_description_spec_example :
    generate_description "Test order" = "VGVzdCBvcmRlcg==" := by
  decide

/-! ## Claims -/

/-- C10: every posted form parameter set contains the configured
`account`, `apiId`, `apiPass` credentials; they are merged after the
caller's parameters, so caller-supplied entries under those keys are
always overwritten and never reach the wire. -/
theorem C10_credentials_always_posted (cfg : PayeerConfig) (params : List (String × Json)) :
    dget (request_api_posted_params cfg params) "account" = some (.str cfg.account) ∧
    dget (request_api_posted_params cfg params) "apiId" = some (.str cfg.api_id) ∧
    dget (request_api_posted_params cfg params) "apiPass" = some (.str cfg.api_pass) := by
  unfold request_api_posted_params dupdate
  simp only [List.foldl_cons, List.foldl_nil]
  refine ⟨?_, ?_, ?_⟩
  · rw [dget_dset_ne _ _ _ _ (by decide), dget_dset_ne _ _ _ _ (by decide), dget_dset_self]
  · rw [dget_dset_ne _ _ _ _ (by decide), dget_dset_self]
  · rw [dget_dset_self]

/-- C3: a callback request whose client IP is not in the allow-list is
answered with the authorization error `PayeerAPIException("Wrong
request IP")`, whatever the POST fields are; no signature computation
is reached (the signature path of this handler always raises
`TypeError`, see the C2 theorem, and that outcome never shows here). -/
theorem C3_unauthorized_ip_rejected (cfg : PayeerConfig) (ips : List String)
    (meta post : List (String × String)) (h : ipMem (get_client_ip meta) ips = false) :
    merchant_handler cfg ips meta post = .error (.payeerAPIError (.str "Wrong request IP")) := by
  unfold merchant_handler
  rw [h]
  rfl

/-- Witness for C3: a concrete request from `10.0.0.1` against an
allow-list holding only `185.71.65.92`, with a fully valid-looking
POST, is rejected with the authorization error. -/
theorem C3_witness :
    ipMem (get_client_ip [("REMOTE_ADDR", "10.0.0.1")]) ["185.71.65.92"] = false ∧
    merchant_handler ⟨"P1234567", "i", "p", "12345", "sk"⟩ ["185.71.65.92"]
      [("REMOTE_ADDR", "10.0.0.1")]
      [("m_operation_id", "42"), ("m_orderid", "1001"), ("m_status", "success")] =
      .error (.payeerAPIError (.str "Wrong request IP")) :=
  ⟨rfl, C3_unauthorized_ip_rejected _ _ _ _ rfl⟩

/-- C2 (the code defect): for every request from an allow-listed IP the
handler raises `TypeError` instead of verifying the signature:
`params_for_sign = list(received_params.values()).append(secret)`
assigns the `None` returned by `list.append`, and
`":".join(None)` inside `generate_signature` then fails.  The
accept/reject logic (and the `"<order_id>|success"` /
`"<order_id>|error"` acknowledgments) is unreachable. -/
theorem C2_handler_always_raises_type_error (cfg : PayeerConfig) (ips : List String)
    (meta post : List (String × String)) (h : ipMem (get_client_ip meta) ips = true) :
    merchant_handler cfg ips meta post = .error (.typeError "can only join an iterable") := by
  unfold merchant_handler
  rw [h]
  rfl

/-- Witness for C2: a fully well-formed callback (allow-listed IP,
non-empty operation id, `m_status = success`) still raises `TypeError`. -/
theorem C2_witness :
    ipMem (get_client_ip [("REMOTE_ADDR", "185.71.65.92")]) ["185.71.65.92"] = true ∧
    merchant_handler ⟨"P1234567", "i", "p", "12345", "sk"⟩ ["185.71.65.92"]
      [("REMOTE_ADDR", "185.71.65.92")]
      [("m_operation_id", "42"), ("m_operation_ps", "1"), ("m_operation_date", "d"),
       ("m_operation_pay_date", "d"), ("m_shop", "12345"), ("m_orderid", "1001"),
       ("m_amount", "10.00"), ("m_curr", "USD"), ("m_desc", "VGVzdCBvcmRlcg=="),
       ("m_status", "success"), ("m_sign", "ABCD")] =
      .error (.typeError "can only join an iterable") :=
  ⟨rfl, C2_handler_always_raises_type_error _ _ _ _ rfl⟩

/-- The sixteen uppercase hexadecimal digits. -/
def hexUpperDigits : List Char :=
  ['0', '1', '2', '3', '4', '5', '6', '7', '8', '9', 'A', 'B', 'C', 'D', 'E', 'F']

theorem hexCharUpper_mem (n : Nat) (h : n < 16) : hexCharUpper n ∈ hexUpperDigits := by
  interval_cases n <;> decide

theorem bytesToHexUpper_length (l : List Nat) : (bytesToHexUpper l).length = 2 * l.length := by
  induction l with
  | nil => rfl
  | cons b rest ih =>
    rw [bytesToHexUpper, List.length_cons, List.length_cons, List.length_cons, ih]
    omega

theorem bytesToHexUpper_mem (l : List Nat) (h : ∀ b ∈ l, b < 256) :
    ∀ c ∈ bytesToHexUpper l, c ∈ hexUpperDigits := by
  induction l with
  | nil => intro c hc; simp [bytesToHexUpper] at hc
  | cons b rest ih =>
    intro c hc
    have hb : b < 256 := h b (List.mem_cons_self b rest)
    rw [bytesToHexUpper] at hc
    rcases List.mem_cons.1 hc with rfl | hc
    · exact hexCharUpper_mem _ (by omega)
    · rcases List.mem_cons.1 hc with rfl | hc
      · exact hexCharUpper_mem _ (by omega)
      · exact ih (fun x hx => h x (List.mem_cons_of_mem b hx)) c hc

theorem wordBytes_lt (w : Nat) : ∀ b ∈ wordBytes w, b < 256 := by
  intro b hb
  simp only [wordBytes, List.mem_cons, List.not_mem_nil, or_false] at hb
  rcases hb with rfl | rfl | rfl | rfl <;> omega

theorem sha256Bytes_lt (msg : List Nat) : ∀ b ∈ sha256Bytes msg, b < 256 := by
  intro b hb
  simp only [sha256Bytes, List.mem_append] at hb
  rcases hb with ((((((hb | hb) | hb) | hb) | hb) | hb) | hb) | hb <;>
    exact wordBytes_lt _ b hb

theorem sha256Bytes_length (msg : List Nat) : (sha256Bytes msg).length = 32 := by
  simp [sha256Bytes, wordBytes]

theorem sha256HexUpper_length (msg : List Nat) : (sha256HexUpper msg).length = 64 := by
  show (bytesToHexUpper (sha256Bytes msg)).length = 64
  rw [bytesToHexUpper_length, sha256Bytes_length]

set_option maxRecDepth 10000 in
/-- C1: `generate_signature` joins the ordered fields with `":"`,
UTF-8-encodes, hashes with SHA-256 (as implemented above, matching the
FIPS test vectors), and renders the digest as 64 uppercase hexadecimal
characters; it is a pure function (equal inputs give equal outputs) and
it is order-sensitive: the two orderings of the field set
`{"a", "b"}` hash differently. -/
theorem C1_generate_signature_shape (ps qs : List String) :
    (generate_signature ps).length = 64 ∧
    (∀ c ∈ (generate_signature ps).data, c ∈ hexUpperDigits) ∧
    (ps = qs → generate_signature ps = generate_signature qs) ∧
    generate_signature ["a", "b"] ≠ generate_signature ["b", "a"] := by
  refine ⟨sha256HexUpper_length _, ?_, fun h => by rw [h], ?_⟩
  · intro c hc
    exact bytesToHexUpper_mem _ (sha256Bytes_lt _) c hc
  · show sha256HexUpper (strBytes "a:b") ≠ sha256HexUpper (strBytes "b:a")
    decide

/-- Witness for C1 at the concrete field list `["a"]`. -/
theorem C1_witness :
    (generate_signature ["a"]).length = 64 ∧
    generate_signature ["a"] = generate_signature ["a"] :=
  ⟨(C1_generate_signature_shape ["a"] ["a"]).1,
   (C1_generate_signature_shape ["a"] ["a"]).2.2.1 rfl⟩

/-- Every ASCII code produced by the base64 encoder is below 128. -/
theorem b64encodeBytes_lt_128 : ∀ l : List Nat, ∀ x ∈ b64encodeBytes l, x < 128
  | [] => by intro x hx; simp [b64encodeBytes] at hx
  | [a] => by
    intro x hx
    simp only [b64encodeBytes, List.mem_cons, List.not_mem_nil, or_false] at hx
    rcases hx with rfl | rfl | rfl | rfl
    · exact b64CharCode_lt_128 _
    · exact b64CharCode_lt_128 _
    · omega
    · omega
  | [a, b] => by
    intro x hx
    simp only [b64encodeBytes, List.mem_cons, List.not_mem_nil, or_false] at hx
    rcases hx with rfl | rfl | rfl | rfl
    · exact b64CharCode_lt_128 _
    · exact b64CharCode_lt_128 _
    · exact b64CharCode_lt_128 _
    · omega
  | a :: b :: c :: rest => by
    intro x hx
    simp only [b64encodeBytes, List.mem_cons] at hx
    rcases hx with rfl | rfl | rfl | rfl | hx
    · exact b64CharCode_lt_128 _
    · exact b64CharCode_lt_128 _
    · exact b64CharCode_lt_128 _
    · exact b64CharCode_lt_128 _
    · exact b64encodeBytes_lt_128 rest x hx

/-- Model of `base64.b64decode(text)` followed by
`bytes.decode("utf-8")`, on a Lean string. -/
def b64decodeToString (s : String) : Option String :=
  (b64decodeBytes (strCps s)).bind fun bytes =>
    (utf8Decode bytes).map fun cps => String.mk (cps.map Char.ofNat)

/-- C9: base64-decoding the output of the description encoder (and
UTF-8-decoding the resulting bytes) yields the original string, for
every string, including the empty one and strings with multi-byte
characters. -/
theorem C9_description_encode_decode_roundtrip (s : String) :
    b64decodeToString (generate_description s) = some s := by
  unfold b64decodeToString generate_description
  have hdata : (String.mk ((b64encodeBytes (strBytes s)).map Char.ofNat)).data =
      (b64encodeBytes (strBytes s)).map Char.ofNat := rfl
  have h1 : strCps (String.mk ((b64encodeBytes (strBytes s)).map Char.ofNat)) =
      b64encodeBytes (strBytes s) := by
    unfold strCps
    rw [hdata, List.map_map]
    have hid : ∀ x ∈ b64encodeBytes (strBytes s), (Char.toNat ∘ Char.ofNat) x = x := by
      intro x hx
      have hx128 : x < 128 := b64encodeBytes_lt_128 _ x hx
      exact toNat_ofNat_of_lt x (by omega)
    rw [List.map_congr_left hid]
    simp
  rw [h1]
  have hlt : ∀ b ∈ strBytes s, b < 256 := utf8Encode_lt _ (strCps_valid s)
  rw [b64decode_b64encode (strBytes s) hlt]
  have h2 : utf8Decode (strBytes s) = some (strCps s) :=
    utf8Decode_utf8Encode _ (strCps_valid s)
  show (utf8Decode (strBytes s)).map _ = some s
  rw [h2]
  have h3 : (strCps s).map Char.ofNat = s.data := by
    unfold strCps
    rw [List.map_map]
    have hid : ∀ c ∈ s.data, (Char.ofNat ∘ Char.toNat) c = c := by
      intro c _
      exact Char.ofNat_toNat c
    rw [List.map_congr_left hid]
    simp
  show some (String.mk ((strCps s).map Char.ofNat)) = some s
  rw [h3]

theorem walletTailMatch_iff (rest : List Char) :
    walletTailMatch rest = true ↔
    ∃ ds tail, rest = ds ++ tail ∧ ds.all pyDigit = true ∧ 7 ≤ ds.length ∧
      ds.length ≤ 12 ∧ (tail = [] ∨ tail = ['\n']) := by
  unfold walletTailMatch
  rw [List.any_eq_true]
  constructor
  · rintro ⟨k, hk, hmatch⟩
    simp only [Bool.and_eq_true, Bool.or_eq_true, decide_eq_true_eq] at hmatch
    obtain ⟨⟨hlen, hdig⟩, htail⟩ := hmatch
    have hk' : 7 ≤ k ∧ k ≤ 12 := by
      simp only [List.mem_cons, List.not_mem_nil, or_false] at hk
      rcases hk with rfl | rfl | rfl | rfl | rfl | rfl <;> omega
    refine ⟨rest.take k, rest.drop k, (List.take_append_drop k rest).symm, hdig, ?_, ?_, htail⟩
    · rw [List.length_take]; omega
    · rw [List.length_take]; omega
  · rintro ⟨ds, tail, rfl, hdig, h7, h12, htail⟩
    refine ⟨ds.length, ?_, ?_⟩
    · simp only [List.mem_cons, List.not_mem_nil, or_false]
      omega
    · simp only [Bool.and_eq_true, Bool.or_eq_true, decide_eq_true_eq]
      refine ⟨⟨?_, ?_⟩, ?_⟩
      · rw [List.length_append]; omega
      · rw [List.take_left]; exact hdig
      · rw [List.drop_left]; exact htail

theorem walletSearch_iff (l : List Char) :
    walletSearch l = true ↔
    ∃ pre ds tail, l = pre ++ 'P' :: (ds ++ tail) ∧ ds.all pyDigit = true ∧
      7 ≤ ds.length ∧ ds.length ≤ 12 ∧ (tail = [] ∨ tail = ['\n']) := by
  induction l with
  | nil =>
    simp only [walletSearch]
    constructor
    · intro h; exact absurd h (by simp)
    · rintro ⟨pre, ds, tail, heq, _⟩
      exact absurd heq (by simp)
  | cons c rest ih =>
    rw [walletSearch, Bool.or_eq_true, Bool.and_eq_true, beq_iff_eq, ih, walletTailMatch_iff]
    constructor
    · rintro (⟨rfl, ds, tail, rfl, hd, h7, h12, ht⟩ | ⟨pre, ds, tail, rfl, hd, h7, h12, ht⟩)
      · exact ⟨[], ds, tail, rfl, hd, h7, h12, ht⟩
      · exact ⟨c :: pre, ds, tail, rfl, hd, h7, h12, ht⟩
    · rintro ⟨pre, ds, tail, heq, hd, h7, h12, ht⟩
      cases pre with
      | nil =>
        simp only [List.nil_append, List.cons.injEq] at heq
        obtain ⟨rfl, rfl⟩ := heq
        exact Or.inl ⟨rfl, ds, tail, rfl, hd, h7, h12, ht⟩
      | cons p pre' =>
        simp only [List.cons_append, List.cons.injEq] at heq
        obtain ⟨rfl, rfl⟩ := heq
        exact Or.inr ⟨pre', ds, tail, rfl, hd, h7, h12, ht⟩

/-- The claim's reading of the wallet pattern: the whole string is a
`P` followed by 7 to 12 digits (nothing before the `P`, nothing after
the digits). -/
def specWalletMatch (s : String) : Bool :=
  match s.data with
  | 'P' :: rest => rest.all pyDigit && decide (7 ≤ rest.length) && decide (rest.length ≤ 12)
  | _ => false

/-- C5 counterexample: `"XP1234567"` has a wrong prefix (it does not
match `P` + 7-12 digits as a whole), yet `validate_wallet` accepts it:
Django's `RegexValidator` uses `re.search` and the source pattern
`P\d{7,12}$` is anchored only at the end, so the leading `X` is
skipped. -/
theorem C5_counterexample_wrong_prefix_accepted :
    validate_wallet "XP1234567" = .ok () ∧ specWalletMatch "XP1234567" = false :=
  ⟨rfl, rfl⟩

/-- C5 amended: `validate_wallet` succeeds exactly when SOME suffix of
the string is `P` followed by 7-12 digits, optionally followed by one
final newline (the `$` semantics of Python `re`); wrong digit counts
and trailing characters still fail, but extra leading characters before
a valid suffix are accepted. -/
theorem C5_amended_wallet_validation (s : String) :
    validate_wallet s = .ok () ↔
    ∃ pre ds tail, s.data = pre ++ 'P' :: (ds ++ tail) ∧ ds.all pyDigit = true ∧
      7 ≤ ds.length ∧ ds.length ≤ 12 ∧ (tail = [] ∨ tail = ['\n']) := by
  rw [← walletSearch_iff]
  by_cases hw : walletSearch s.data = true
  · simp [validate_wallet, hw]
  · simp [validate_wallet, hw]

theorem except_bind_ok {α β : Type} (a : α) (f : α → Except PyErr β) :
    (Except.ok a >>= f) = f a := rfl

theorem except_bind_error {α β : Type} (e : PyErr) (f : α → Except PyErr β) :
    ((Except.error e : Except PyErr α) >>= f) = Except.error e := rfl

/-- C6: for every remote action, a response body with a truthy `errors`
entry raises `PayeerAPIException` carrying that payload and any other
body is returned as is — except `check_user` (`checkUser`) and
`check_output` (`initOutput`), which catch exactly that exception and
turn it into `False`, answering `True` when no error occurs. -/
theorem C6_remote_api_error_policy (cfg : PayeerConfig)
    (user psId acct sumIn curIn curOut outKind : String)
    (historyId shopId orderId : Json)
    (params resp : List (String × Json)) :
    (request_api cfg params resp =
      if truthy ((dget resp "errors").getD Json.null) then
        .error (.payeerAPIError ((dget resp "errors").getD Json.null))
      else .ok resp) ∧
    check_user cfg user resp = .ok (!truthy ((dget resp "errors").getD Json.null)) ∧
    check_output cfg psId acct sumIn curIn curOut resp =
      .ok (!truthy ((dget resp "errors").getD Json.null)) ∧
    (truthy ((dget resp "errors").getD Json.null) = true →
      get_balance cfg resp =
        .error (.payeerAPIError ((dget resp "errors").getD Json.null)) ∧
      get_exchange_rate cfg outKind resp =
        .error (.payeerAPIError ((dget resp "errors").getD Json.null)) ∧
      get_pay_systems cfg resp =
        .error (.payeerAPIError ((dget resp "errors").getD Json.null)) ∧
      get_history_info cfg historyId resp =
        .error (.payeerAPIError ((dget resp "errors").getD Json.null)) ∧
      shop_order_info cfg shopId orderId resp =
        .error (.payeerAPIError ((dget resp "errors").getD Json.null)) ∧
      output cfg psId acct sumIn curIn curOut resp =
        .error (.payeerAPIError ((dget resp "errors").getD Json.null)) ∧
      history cfg params resp =
        .error (.payeerAPIError ((dget resp "errors").getD Json.null))) := by
  by_cases ht : truthy ((dget resp "errors").getD Json.null) = true
  · refine ⟨?_, ?_, ?_, fun _ => ?_⟩ <;>
      simp [request_api, check_user, check_output, get_balance, get_exchange_rate,
        get_pay_systems, get_history_info, shop_order_info, output, history, ht,
        except_bind_ok, except_bind_error]
  · have ht' : truthy ((dget resp "errors").getD Json.null) = false :=
      Bool.eq_false_iff.mpr ht
    refine ⟨?_, ?_, ?_, fun hcontra => absurd hcontra ht⟩ <;>
      simp [request_api, check_user, check_output, ht', except_bind_ok, except_bind_error]

/-- Witness for C6: a concrete error body and a concrete success body,
with the implication discharged at the error body. -/
theorem C6_witness :
    check_user ⟨"P1234567", "i", "p", "m", "s"⟩ "P7654321"
      [("errors", .obj [("code", .str "x")])] = .ok false ∧
    get_balance ⟨"P1234567", "i", "p", "m", "s"⟩
      [("errors", .obj [("code", .str "x")])] =
      .error (.payeerAPIError (.obj [("code", .str "x")])) ∧
    check_user ⟨"P1234567", "i", "p", "m", "s"⟩ "P7654321"
      [("balance", .int 3)] = .ok true := by
  refine ⟨?_, ?_, ?_⟩
  · exact (C6_remote_api_error_policy ⟨"P1234567", "i", "p", "m", "s"⟩ "P7654321" "" ""
      "" "" "" "" .null .null .null [] [("errors", .obj [("code", .str "x")])]).2.1
  · exact ((C6_remote_api_error_policy ⟨"P1234567", "i", "p", "m", "s"⟩ "P7654321" "" ""
      "" "" "" "" .null .null .null [] [("errors", .obj [("code", .str "x")])]).2.2.2
      (by rfl)).1
  · exact (C6_remote_api_error_policy ⟨"P1234567", "i", "p", "m", "s"⟩ "P7654321" "" ""
      "" "" "" "" .null .null .null [] [("balance", .int 3)]).2.1

/-- C7 counterexample: with a validated recipient wallet and a response
carrying both a truthy `errors` entry and `historyId = 5 > 0`,
`transfer` raises `PayeerAPIException` — its result is neither `True`
nor `False`, so "`True` iff `historyId > 0`" fails as stated. -/
theorem C7_counterexample_error_response :
    dget [("errors", Json.str "err"), ("historyId", Json.int 5)] "historyId" =
      some (Json.int 5) ∧
    transfer ⟨"P1234567", "i", "p", "m", "s"⟩ "1.00" "P7654321" "USD" "USD"
      none none none none
      [("errors", Json.str "err"), ("historyId", Json.int 5)] =
      .error (.payeerAPIError (Json.str "err")) ∧
    transfer ⟨"P1234567", "i", "p", "m", "s"⟩ "1.00" "P7654321" "USD" "USD"
      none none none none
      [("errors", Json.str "err"), ("historyId", Json.int 5)] ≠ .ok true := by
  refine ⟨rfl, rfl, ?_⟩
  intro h
  exact Except.noConfusion h

/-- C7 amended: for a validated wallet and a response with no truthy
`errors` entry whose `historyId` (defaulting to `0` when absent) is the
integer `n`, `transfer` returns exactly `0 < n`: `True` for positive
ids, `False` for absent, zero, or negative ones.  (With a truthy
`errors` entry the shared `request_api` raises first, see the C7
counterexample.) -/
theorem C7_amended_transfer (cfg : PayeerConfig) (sum toAcct curIn curOut : String)
    (comment protect protectPeriod protectCode : Option String)
    (resp : List (String × Json)) (n : Int)
    (hw : walletSearch toAcct.data = true)
    (herr : truthy ((dget resp "errors").getD Json.null) = false)
    (hh : (dget resp "historyId").getD (Json.int 0) = Json.int n) :
    transfer cfg sum toAcct curIn curOut comment protect protectPeriod protectCode resp =
      .ok (decide (0 < n)) := by
  unfold transfer
  simp [validate_wallet, hw, request_api, herr, hh, pyGtZero,
    except_bind_ok, except_bind_error]

/-- Witness for C7 at a concrete response with `historyId = 7`. -/
theorem C7_witness :
    transfer ⟨"P1234567", "i", "p", "m", "s"⟩ "1.00" "P7654321" "USD" "USD"
      none none none none [("historyId", Json.int 7)] = .ok true :=
  C7_amended_transfer ⟨"P1234567", "i", "p", "m", "s"⟩ "1.00" "P7654321" "USD" "USD"
    none none none none [("historyId", Json.int 7)] 7 (by rfl) (by rfl) (by rfl)

/-- C4: for a valid client account and valid order fields, `merchant`
returns (without any network interaction — it is a pure function) the
parameter mapping `m_shop = merchant id`, `m_orderid`, `m_amount`,
`m_curr`, `m_desc = base64 description`, `m_process = "send"`, `lang`,
and `m_sign = generate_signature([merchant id, order id, amount,
currency, base64 description, merchant secret key])`, merged
last-write-wins with the caller's extra parameters, which may override
any entry; keys untouched by the extras keep the listed values. -/
theorem C4_merchant_checkout_params (cfg : PayeerConfig) (fcfg : MerchantFormConfig)
    (dl oid amt cur desc : String) (lang : Option String)
    (kwargs : List (String × String))
    (hacct : walletSearch cfg.account.data = true)
    (hoid : oid ≠ "") (hamt : amountValid amt = true)
    (hcur : fcfg.currencies.contains cur = true) (hdesc : desc ≠ "")
    (hlang : fcfg.languages.contains (lang.getD dl) = true) :
    ∃ r, merchant cfg fcfg dl oid amt cur desc lang kwargs = .ok r ∧
      r.params = dupdate
        [("m_shop", cfg.merchant_id), ("m_orderid", oid), ("m_amount", amt),
         ("m_curr", cur), ("m_desc", generate_description desc),
         ("m_sign", generate_signature [cfg.merchant_id, oid, amt, cur,
            generate_description desc, cfg.merchant_secret_key]),
         ("m_process", "send"), ("lang", lang.getD dl)] kwargs ∧
      r.signature = generate_signature [cfg.merchant_id, oid, amt, cur,
        generate_description desc, cfg.merchant_secret_key] ∧
      (∀ k v, (kwargs.map Prod.fst).Nodup → dget kwargs k = some v →
        dget r.params k = some v) ∧
      (∀ k, dget kwargs k = none →
        dget r.params k = dget
          [("m_shop", cfg.merchant_id), ("m_orderid", oid), ("m_amount", amt),
           ("m_curr", cur), ("m_desc", generate_description desc),
           ("m_sign", generate_signature [cfg.merchant_id, oid, amt, cur,
              generate_description desc, cfg.merchant_secret_key]),
           ("m_process", "send"), ("lang", lang.getD dl)] k) := by
  have hdata : merchantFormCleanedData fcfg oid amt cur desc (lang.getD dl) =
      [("order_id", oid), ("amount", amt), ("currency", cur),
       ("description", desc), ("language", lang.getD dl)] := by
    unfold merchantFormCleanedData
    rw [if_pos hoid, if_pos hamt, if_pos hcur, if_pos hdesc, if_pos hlang]
    rfl
  have key : merchant cfg fcfg dl oid amt cur desc lang kwargs = .ok
      { location := merchant_url ++ urlencode (dupdate
          [("m_shop", cfg.merchant_id), ("m_orderid", oid), ("m_amount", amt),
           ("m_curr", cur), ("m_desc", generate_description desc),
           ("m_sign", generate_signature [cfg.merchant_id, oid, amt, cur,
              generate_description desc, cfg.merchant_secret_key]),
           ("m_process", "send"), ("lang", lang.getD dl)] kwargs),
        signature := generate_signature [cfg.merchant_id, oid, amt, cur,
          generate_description desc, cfg.merchant_secret_key],
        description := desc,
        params := dupdate
          [("m_shop", cfg.merchant_id), ("m_orderid", oid), ("m_amount", amt),
           ("m_curr", cur), ("m_desc", generate_description desc),
           ("m_sign", generate_signature [cfg.merchant_id, oid, amt, cur,
              generate_description desc, cfg.merchant_secret_key]),
           ("m_process", "send"), ("lang", lang.getD dl)] kwargs } := by
    unfold merchant
    simp only [validate_wallet, hacct, if_true, except_bind_ok, hdata, dget, pyGetItem]
    simp [except_bind_ok]
  refine ⟨_, key, rfl, rfl, ?_, ?_⟩
  · intro k v hnd hk
    exact dget_dupdate_some _ _ _ _ hnd hk
  · intro k hk
    exact dget_dupdate_none _ _ _ hk

/-- A concrete client configuration used by witnesses: valid account
`P1234567`, merchant id `12345`, merchant secret key `sk`. -/
def cfgEx : PayeerConfig := ⟨"P1234567", "api-id", "api-pass", "12345", "sk"⟩

/-- A concrete form configuration: `USD` recognized, languages `ru`,
`en`. -/
def fcfgEx : MerchantFormConfig := ⟨["USD"], ["ru", "en"]⟩

/-- Witness for C4: the spec §8 example order, with an extra parameter
overriding `lang`. -/
theorem C4_witness :
    ∃ r, merchant cfgEx fcfgEx "ru" "1001" "10.00" "USD" "Test order" none
        [("lang", "en")] = .ok r ∧
      r.params = dupdate
        [("m_shop", cfgEx.merchant_id), ("m_orderid", "1001"), ("m_amount", "10.00"),
         ("m_curr", "USD"), ("m_desc", generate_description "Test order"),
         ("m_sign", generate_signature [cfgEx.merchant_id, "1001", "10.00", "USD",
            generate_description "Test order", cfgEx.merchant_secret_key]),
         ("m_process", "send"), ("lang", "ru")] [("lang", "en")] ∧
      r.signature = generate_signature [cfgEx.merchant_id, "1001", "10.00", "USD",
        generate_description "Test order", cfgEx.merchant_secret_key] ∧
      (∀ k v, ((([("lang", "en")] : List (String × String))).map Prod.fst).Nodup →
        dget [("lang", "en")] k = some v → dget r.params k = some v) ∧
      (∀ k, dget [("lang", "en")] k = none →
        dget r.params k = dget
          [("m_shop", cfgEx.merchant_id), ("m_orderid", "1001"), ("m_amount", "10.00"),
           ("m_curr", "USD"), ("m_desc", generate_description "Test order"),
           ("m_sign", generate_signature [cfgEx.merchant_id, "1001", "10.00", "USD",
              generate_description "Test order", cfgEx.merchant_secret_key]),
           ("m_process", "send"), ("lang", "ru")] k) :=
  C4_merchant_checkout_params cfgEx fcfgEx "ru" "1001" "10.00" "USD" "Test order" none
    [("lang", "en")] (by decide) (by decide) (by decide) (by decide) (by decide) (by decide)

/-- C8 (the code defect): `merchant` calls `form.is_valid()` but
discards its result and reads `cleaned_data` directly.  With an invalid
(empty) description — a field the modelled form rejects, so
`cleaned_data` lacks it — the call does not raise any validation error:
it silently signs and ships `m_desc = base64("") = ""`.  And when the
amount is invalid, the surfaced error is `KeyError("amount")` from the
`cleaned_data` subscript, not a ValidationError naming the field. -/
theorem C8_invalid_order_fields_not_surfaced_as_validation_error :
    dget (merchantFormCleanedData fcfgEx "1001" "10.00" "USD" "" "ru") "description" =
      none ∧
    (merchant cfgEx fcfgEx "ru" "1001" "10.00" "USD" "" none []).map
      (fun r => dget r.params "m_desc") = .ok (some "") ∧
    amountValid "not-a-number" = false ∧
    merchant cfgEx fcfgEx "ru" "1001" "not-a-number" "USD" "desc" none [] =
      .error (.keyError "amount") := by
  refine ⟨rfl, ?_, rfl, rfl⟩
  rfl

end Payeer
